import Mathlib

/-!
Shallow embedding of the PDFMerger client (validation pipeline, document
registry and merge orchestrator) and proofs about it.

The embedding follows the most complete source revision (the class-based
`SecurePDFMerger`): `SECURITY_CONFIG`, `SecurityUtils.validateFileBasic`,
`SecurityUtils.validateFileAdvanced`, `SecurityUtils.readFileHeader`,
`SecurePDFMerger.handleFiles`, the thumbnail-list remove / move-up /
move-down handlers, and `mergePDFs`.

The two external PDF libraries (pdf.js for parsing, pdf-lib for document
manipulation) are opaque collaborators: their outcome on a given byte
buffer is modelled as an oracle field attached to the file (`parse` for
pdf.js, `load` for pdf-lib), since the core never inspects PDF bytes
itself beyond the 4-byte signature.
-/

/-! ### SECURITY_CONFIG (frozen constants) -/

namespace SECURITY_CONFIG

def MAX_FILE_SIZE : Nat := 50 * 1024 * 1024

def MAX_TOTAL_SIZE : Nat := 200 * 1024 * 1024

/-- Total pages across all documents. -/
def MAX_PAGES : Nat := 500

def MAX_DOCUMENTS : Nat := 20

def ALLOWED_MIME_TYPES : List String := ["application/pdf"]

/-- The allowed extensions, as character sequences (see `extensionOf`). -/
def ALLOWED_EXTENSIONS : List (List Char) := [['.', 'p', 'd', 'f']]

/-- The fixed signature bytes of "%PDF". -/
def PDF_HEADER : List Nat := [0x25, 0x50, 0x44, 0x46]

end SECURITY_CONFIG

/-! ### Candidate files and the validation error taxonomy -/

/-- A candidate file as supplied by the host environment: declared name,
declared byte size, declared MIME type (`file.type`; the empty string when
the host omits it), the raw byte content, and the opaque outcome of
handing the content to the external pdf.js parser
(`pdfjsLib.getDocument`): `some numPages` when parsing succeeds, `none`
when the parser throws (corrupt / encrypted document). -/
structure CandidateFile where
  name : String
  size : Nat
  mime : String
  content : List Nat
  parse : Option Nat
deriving DecidableEq, Repr

/-- The per-file validation error taxonomy. Each constructor corresponds
to one throw site in the source: InvalidExtension and FileTooLarge to
`validateFileBasic`, InvalidMimeType / InvalidSignature /
CorruptDocument / TooManyPages to `validateFileAdvanced`,
AggregatePageLimitExceeded to the running-total check in `handleFiles`,
and TooManyFiles / BatchTooLarge to the two batch-wide ceilings. -/
inductive VErr where
  | InvalidExtension
  | FileTooLarge
  | BatchTooLarge
  | InvalidMimeType
  | InvalidSignature
  | CorruptDocument
  | TooManyPages
  | AggregatePageLimitExceeded
  | TooManyFiles
deriving DecidableEq, Repr

deriving instance DecidableEq for Except

/-- The extension slice `file.name.toLowerCase().slice(-4)`: the last four
characters of the lower-cased name (the whole name when shorter), viewed
as a character sequence. -/
def extensionOf (name : String) : List Char :=
  (name.data.map Char.toLower).drop (name.data.length - 4)

/-- SecurityUtils.validateFileBasic: extension allow-list check, then the
per-file size ceiling. -/
def validateFileBasic (f : CandidateFile) : Except VErr Unit :=
  if ¬ SECURITY_CONFIG.ALLOWED_EXTENSIONS.contains (extensionOf f.name) then
    .error .InvalidExtension
  else if f.size > SECURITY_CONFIG.MAX_FILE_SIZE then
    .error .FileTooLarge
  else
    .ok ()

/-- SecurityUtils.readFileHeader: the first 4 bytes of the content
(`file.slice(0, 4)`); shorter files yield their whole content. -/
def readFileHeader (f : CandidateFile) : List Nat :=
  f.content.take 4

/-- The JavaScript check `header.every((val, i) => val === PDF_HEADER[i])`:
walk the header bytes in order, comparing each against the signature byte
at the same index; a header byte with no corresponding signature byte
compares unequal (=== undefined). An empty header passes vacuously. -/
def headerMatches : List Nat → List Nat → Bool
  | [], _ => true
  | _ :: _, [] => false
  | v :: vs, s :: ss => v == s && headerMatches vs ss

/-- SecurityUtils.validateFileAdvanced: MIME check (only when the declared
type is non-empty), then the magic-number check, then the structural parse
with pdf.js, then the per-document page ceiling; returns the page count on
success. Each check short-circuits the rest. -/
def validateFileAdvanced (f : CandidateFile) : Except VErr Nat :=
  if f.mime ≠ "" ∧ ¬ SECURITY_CONFIG.ALLOWED_MIME_TYPES.contains f.mime then
    .error .InvalidMimeType
  else if ¬ headerMatches (readFileHeader f) SECURITY_CONFIG.PDF_HEADER then
    .error .InvalidSignature
  else
    match f.parse with
    | none => .error .CorruptDocument
    | some numPages =>
        if numPages > 100 then .error .TooManyPages
        else .ok numPages

/-! ### The document registry and SecurePDFMerger.handleFiles -/

/-- An entry of `this.pdfFiles`: the accepted file together with its
validated page count. The source also stores the array buffer (equal to
`file.content`), the derived thumbnail data URL (regenerable UI artifact)
and a constant `isValid: true` flag; none of these carry further
information for the registry semantics. -/
structure AcceptedDoc where
  file : CandidateFile
  pageCount : Nat
deriving DecidableEq, Repr

/-- The mutable state of `SecurePDFMerger`: the ordered registry
`this.pdfFiles` and the running aggregate page total `this.totalPages`. -/
structure MergerState where
  pdfFiles : List AcceptedDoc
  totalPages : Nat
deriving DecidableEq, Repr

/-- The body of the per-file try block inside `handleFiles`:
`validateFileBasic`, then `validateFileAdvanced` (yielding the page
count), then `this.totalPages += pageCount` followed by the aggregate
page ceiling check — note the increment happens before the check and is
not rolled back when the check throws — and finally the push of the
accepted entry onto `this.pdfFiles`. (The thumbnail rendering between the
ceiling check and the push re-parses content that already parsed
successfully; it is UI-only and cannot reject the file.) Returns the
state after processing this file, plus the error when the file was
rejected. -/
def processFile (st : MergerState) (f : CandidateFile) :
    MergerState × Option VErr :=
  match validateFileBasic f with
  | .error e => (st, some e)
  | .ok _ =>
    match validateFileAdvanced f with
    | .error e => (st, some e)
    | .ok pageCount =>
      let tp := st.totalPages + pageCount
      if tp > SECURITY_CONFIG.MAX_PAGES then
        ({ st with totalPages := tp }, some .AggregatePageLimitExceeded)
      else
        ({ pdfFiles := st.pdfFiles ++ [⟨f, pageCount⟩], totalPages := tp },
         none)

/-- The `for (const file of fileArray)` loop of `handleFiles`. The inner
catch block reports the error and then rethrows (`throw error`), so the
first rejected file terminates the loop: the outer catch receives the
error and the remaining files are never examined. Returns the final
state and the error that aborted the loop, if any. -/
def handleFilesLoop (st : MergerState) :
    List CandidateFile → MergerState × Option VErr
  | [] => (st, none)
  | f :: fs =>
    match processFile st f with
    | (st1, none) => handleFilesLoop st1 fs
    | (st1, some e) => (st1, some e)

/-- SecurePDFMerger.handleFiles: the batch document-count ceiling, then
the batch total-size ceiling, both checked before any per-file work; then
the per-file loop. -/
def handleFiles (st : MergerState) (files : List CandidateFile) :
    MergerState × Option VErr :=
  if files.length > SECURITY_CONFIG.MAX_DOCUMENTS then
    (st, some .TooManyFiles)
  else if (files.map CandidateFile.size).sum > SECURITY_CONFIG.MAX_TOTAL_SIZE then
    (st, some .BatchTooLarge)
  else
    handleFilesLoop st files

/-! ### Registry handlers: remove, move up, move down -/

/-- The remove-button handler: `this.totalPages -= pdfFiles[index].pageCount`
then `this.pdfFiles.splice(index, 1)`. Indices always come from the
`data-index` attribute of a rendered thumbnail, hence are in range; the
model leaves the state unchanged on an out-of-range index. -/
def removeDoc (st : MergerState) (index : Nat) : MergerState :=
  match st.pdfFiles[index]? with
  | some d =>
      { pdfFiles := st.pdfFiles.eraseIdx index,
        totalPages := st.totalPages - d.pageCount }
  | none => st

/-- The destructuring swap `[a[i], a[j]] = [a[j], a[i]]` of two in-range
positions; identity when either index is out of range (rendered-thumbnail
indices are always in range). -/
def swapAdj {α : Type} (l : List α) (i j : Nat) : List α :=
  match l[i]?, l[j]? with
  | some a, some b => (l.set i b).set j a
  | _, _ => l

/-- The move-up-button handler: `if (index > 0)` swap positions
`index` and `index - 1`. -/
def moveUp {α : Type} (l : List α) (index : Nat) : List α :=
  if 0 < index then swapAdj l index (index - 1) else l

/-- The move-down-button handler: `if (index < pdfFiles.length - 1)` swap
positions `index` and `index + 1`. -/
def moveDown {α : Type} (l : List α) (index : Nat) : List α :=
  if index + 1 < l.length then swapAdj l index (index + 1) else l

/-! ### The merge orchestrator -/

/-- A document as seen by the external manipulation library (pdf-lib)
after `PDFDocument.load`: its ordered page sequence. The page type is a
parameter; pages are opaque objects that are only copied and appended. -/
structure LoadedDoc (P : Type) where
  pages : List P
deriving DecidableEq, Repr

/-- pdf-lib `doc.getPageIndices()`: the index list `[0, ..., n-1]`. -/
def getPageIndices {P : Type} (d : LoadedDoc P) : List Nat :=
  List.range d.pages.length

/-- pdf-lib `mergedPdf.copyPages(doc, indices)`: the pages of `doc` at
the given indices, in the order the indices are listed. -/
def copyPages {P : Type} (d : LoadedDoc P) (idxs : List Nat) : List P :=
  idxs.filterMap (fun i => d.pages[i]?)

/-- A registry entry as consumed by `mergePDFs`: the page count recorded
at acceptance time and the opaque outcome of
`PDFDocument.load(pdfFile.arrayBuffer)` — `some` loaded document when
loading (and the subsequent page copying) succeeds, `none` when the
external library throws (content unreadable between validation and
merge). -/
structure PdfFile (P : Type) where
  pageCount : Nat
  load : Option (LoadedDoc P)
deriving DecidableEq, Repr

/-- The merge loop: for each registry entry in order, load it, copy all
of its pages (`copyPages` over `getPageIndices`) and append each copied
page at the end of the output (`pages.forEach(page => mergedPdf.addPage(page))`).
A load failure throws, aborting the loop with no result. `acc` is the
page sequence of the partially-built output document. -/
def mergeLoop {P : Type} : List (PdfFile P) → List P → Option (List P)
  | [], acc => some acc
  | f :: fs, acc =>
    match f.load with
    | none => none
    | some d => mergeLoop fs (acc ++ copyPages d (getPageIndices d))

/-- The core of `mergePDFs`: `PDFDocument.create()` (an empty output) then
the merge loop over the registry snapshot. The result is the page
sequence of the serialized output (`mergedPdf.save()`); the watermark
stamped on each page afterwards alters page contents cosmetically but
not the page sequence, and is not modelled. -/
def mergePDFs {P : Type} (files : List (PdfFile P)) : Option (List P) :=
  mergeLoop files []

/-- The merge-button UI state touched by `mergePDFs`. -/
structure MergeUI where
  btnDisabled : Bool
  btnText : String
deriving DecidableEq, Repr

/-- The overall outcome of one `mergePDFs` invocation: the output byte
stream offered for download (as its page sequence; `none` when the merge
failed and no output was produced) and the merge-button state afterwards. -/
structure MergeOutcome (P : Type) where
  output : Option (List P)
  ui : MergeUI
deriving DecidableEq, Repr

/-- The full `mergePDFs` control flow: the empty-registry early return
(before the button is touched), then disable the button and set
`Merging...`, run the try block (merge loop, save, offer download); on a
throw the catch block reports and no output exists; the finally block
re-enables the button and restores its label on both paths. -/
def mergePDFsFull {P : Type} (ui : MergeUI) (files : List (PdfFile P)) :
    MergeOutcome P :=
  if files.isEmpty then
    ⟨none, ui⟩
  else
    match mergeLoop files [] with
    | none => ⟨none, ⟨false, "Merge PDFs"⟩⟩
    | some pages => ⟨some pages, ⟨false, "Merge PDFs"⟩⟩

/-! ### Helper lemmas -/

/-- The indexed `every` comparison succeeds exactly when the header is a
prefix of the signature (elementwise equal to the signature truncated to
the header's length), as long as the header is not longer than the
signature. -/
lemma headerMatches_iff_take : ∀ (hd tgt : List Nat), hd.length ≤ tgt.length →
    (headerMatches hd tgt = true ↔ hd = tgt.take hd.length)
  | [], _, _ => by simp [headerMatches]
  | v :: vs, [], h => by simp at h
  | v :: vs, s :: ss, h => by
    have ih := headerMatches_iff_take vs ss (by simpa using h)
    simp [headerMatches, ih]

lemma set_getElem_self {α : Type} (l : List α) (i : Nat) (h : i < l.length) :
    l.set i l[i] = l := by
  induction l generalizing i with
  | nil => simp at h
  | cons a tl ih =>
    cases i with
    | zero => simp
    | succ n =>
      have hn : n < tl.length := by simpa using h
      simp only [List.getElem_cons_succ]
      show a :: tl.set n tl[n] = a :: tl
      rw [ih n hn]

lemma length_swapAdj {α : Type} (l : List α) (i j : Nat) :
    (swapAdj l i j).length = l.length := by
  unfold swapAdj
  cases hi : l[i]? <;> cases hj : l[j]? <;> simp

lemma swapAdj_eq_set {α : Type} (l : List α) (i j : Nat)
    (hi : i < l.length) (hj : j < l.length) :
    swapAdj l i j = (l.set i l[j]).set j l[i] := by
  unfold swapAdj
  rw [List.getElem?_eq_getElem hi, List.getElem?_eq_getElem hj]

/-- Swapping two distinct in-range positions and then swapping them back
restores the list. -/
lemma swapAdj_invol {α : Type} (l : List α) (i j : Nat)
    (hi : i < l.length) (hj : j < l.length) (hij : i ≠ j) :
    swapAdj (swapAdj l i j) j i = l := by
  rw [swapAdj_eq_set l i j hi hj]
  have e1 : ((l.set i l[j]).set j l[i])[j]? = some l[i] := by
    rw [List.getElem?_set]
    simp [hj]
  have e2 : ((l.set i l[j]).set j l[i])[i]? = some l[j] := by
    rw [List.getElem?_set]
    simp [Ne.symm hij]
    rw [List.getElem?_set]
    simp [hi]
  unfold swapAdj
  rw [e1, e2]
  show (((l.set i l[j]).set j l[i]).set j l[j]).set i l[i] = l
  rw [List.set_set, List.set_comm _ _ _ hij, List.set_set,
    set_getElem_self l j hj, set_getElem_self l i hi]

/-- Summing a mapped list splits off the element at any in-range index. -/
lemma sum_map_eraseIdx {α : Type} (g : α → Nat) :
    ∀ (l : List α) (i : Nat) (a : α), l[i]? = some a →
      (l.map g).sum = g a + ((l.eraseIdx i).map g).sum
  | [], i, a, h => by simp at h
  | b :: tl, 0, a, h => by
    simp at h
    subst h
    simp
  | b :: tl, i + 1, a, h => by
    have ih := sum_map_eraseIdx g tl i a (by simpa using h)
    simp [ih]
    omega

/-- Reading every index of a list in order yields the list itself. -/
lemma filterMap_getElem_range {α : Type} (l : List α) :
    (List.range l.length).filterMap (fun i => l[i]?) = l := by
  induction l with
  | nil => simp
  | cons a tl ih =>
    have hcomp : (fun i => (a :: tl)[i]?) ∘ Nat.succ = fun i => tl[i]? := by
      funext i
      simp
    rw [List.length_cons, List.range_succ_eq_map, List.filterMap_cons]
    simp only [List.getElem?_cons_zero]
    rw [List.filterMap_map, hcomp, ih]

/-- Copying a loaded document at all of its own page indices reproduces
its page sequence. -/
lemma copyPages_getPageIndices {P : Type} (d : LoadedDoc P) :
    copyPages d (getPageIndices d) = d.pages := by
  unfold copyPages getPageIndices
  exact filterMap_getElem_range d.pages

/-- When every registry entry loads, the merge loop appends the
concatenation of all page sequences to the accumulator. -/
lemma mergeLoop_all_loaded {P : Type} :
    ∀ (files : List (PdfFile P)) (docs : List (List P)) (acc : List P),
      files.map PdfFile.load = docs.map (fun ps => some ⟨ps⟩) →
      mergeLoop files acc = some (acc ++ docs.flatten)
  | [], docs, acc, h => by
    have : docs = [] := by
      cases docs with
      | nil => rfl
      | cons d ds => simp at h
    subst this
    simp [mergeLoop]
  | f :: fs, docs, acc, h => by
    cases docs with
    | nil => simp at h
    | cons ps dss =>
      simp only [List.map_cons, List.cons.injEq] at h
      have ih := mergeLoop_all_loaded fs dss (acc ++ ps) h.2
      simp only [mergeLoop, h.1, copyPages_getPageIndices]
      rw [ih]
      simp

/-- If any registry entry fails to load, the merge loop produces no
output, whatever has been accumulated so far. -/
lemma mergeLoop_fail {P : Type} :
    ∀ (files : List (PdfFile P)) (acc : List P),
      (∃ f ∈ files, f.load = none) → mergeLoop files acc = none
  | [], acc, h => by simp at h
  | f :: fs, acc, h => by
    unfold mergeLoop
    cases hl : f.load with
    | none => rfl
    | some d =>
      apply mergeLoop_fail fs
      rcases h with ⟨g, hg, hgl⟩
      rcases List.mem_cons.mp hg with hg1 | hg1
      · subst hg1
        rw [hgl] at hl
        cases hl
      · exact ⟨g, hg1, hgl⟩

/-! ### Concrete fixtures used by witnesses and counterexamples -/

/-- A well-formed one-page PDF candidate: `.pdf` extension, declared PDF
MIME type, content beginning with the %PDF signature, parsing to one
page. -/
def fGood : CandidateFile :=
  ⟨"good.pdf", 100, "application/pdf", [0x25, 0x50, 0x44, 0x46, 0x2D], some 1⟩

/-- A second well-formed one-page PDF candidate. -/
def fGood2 : CandidateFile :=
  ⟨"also-good.pdf", 90, "application/pdf", [0x25, 0x50, 0x44, 0x46, 0x31], some 1⟩

/-- A candidate with a disallowed extension (rejected by
`validateFileBasic`). -/
def fBadExt : CandidateFile :=
  ⟨"evil.exe", 100, "", [0x25, 0x50, 0x44, 0x46], some 1⟩

/-- A well-formed 100-page PDF candidate. -/
def fBig : CandidateFile :=
  ⟨"big.pdf", 5000, "application/pdf", [0x25, 0x50, 0x44, 0x46, 0x2D], some 100⟩

/-- Registry entries for merge witnesses: a two-page and a one-page
loaded document over Nat-labelled pages. -/
def mfA : PdfFile Nat := ⟨2, some ⟨[10, 11]⟩⟩

def mfB : PdfFile Nat := ⟨1, some ⟨[20]⟩⟩

/-! ### Claim theorems -/

/-- C1: for every non-empty registry all of whose documents load, with
each document's page sequence `docs[k]` and the recorded page counts
matching those sequences, the merge produces an output whose page
sequence is exactly the concatenation of the source page sequences in
registry order (each source's internal order preserved), and whose page
count is the sum of the accepted documents' page counts. -/
theorem merge_pages_concat {P : Type} (files : List (PdfFile P))
    (docs : List (List P))
    (hne : files ≠ [])
    (hload : files.map PdfFile.load = docs.map (fun ps => some ⟨ps⟩))
    (hpc : files.map PdfFile.pageCount = docs.map List.length) :
    mergePDFs files = some docs.flatten ∧
    docs.flatten.length = (files.map PdfFile.pageCount).sum := by
  constructor
  · unfold mergePDFs
    rw [mergeLoop_all_loaded files docs [] hload]
    simp
  · rw [hpc]
    exact List.length_flatten docs

/-- Witness for C1 at a concrete two-document registry. -/
theorem merge_pages_concat_witness :
    mergePDFs [mfA, mfB] = some ([[10, 11], [20]] : List (List Nat)).flatten ∧
    ([[10, 11], [20]] : List (List Nat)).flatten.length
      = ([mfA, mfB].map PdfFile.pageCount).sum :=
  merge_pages_concat [mfA, mfB] [[10, 11], [20]] (by decide) (by decide)
    (by decide)

/-- C2 counterexample: the batch [fBadExt, fGood] passes both batch-wide
ceilings and its second file is valid (it is accepted when submitted
alone), yet after the first file is rejected the batch aborts: the
registry stays empty and only the first rejection is reported, so the
valid subsequent file was neither validated nor accepted. -/
theorem rejection_not_independent_cex :
    (handleFiles ⟨[], 0⟩ [fBadExt, fGood]).1.pdfFiles = [] ∧
    (handleFiles ⟨[], 0⟩ [fBadExt, fGood]).2 = some .InvalidExtension ∧
    (handleFiles ⟨[], 0⟩ [fGood]).1.pdfFiles = [⟨fGood, 1⟩] ∧
    [fBadExt, fGood].length ≤ SECURITY_CONFIG.MAX_DOCUMENTS ∧
    ([fBadExt, fGood].map CandidateFile.size).sum
      ≤ SECURITY_CONFIG.MAX_TOTAL_SIZE := by
  decide

/-- C2 amended: in a batch that passes the batch-wide ceilings, files are
validated sequentially, but the first per-file rejection halts the batch:
the files accepted before it remain in the registry, the rejection is
reported, and the remaining files are never examined — the result does
not depend on what follows the rejected file. -/
theorem rejection_halts_batch (st st1 st2 : MergerState)
    (pre post : List CandidateFile) (f : CandidateFile) (e : VErr)
    (hpre : handleFilesLoop st pre = (st1, none))
    (hf : processFile st1 f = (st2, some e)) :
    handleFilesLoop st (pre ++ f :: post) = (st2, some e) := by
  induction pre generalizing st with
  | nil =>
    simp only [handleFilesLoop, Prod.mk.injEq] at hpre
    rw [List.nil_append]
    simp only [handleFilesLoop, hpre.1, hf]
  | cons g gs ih =>
    rw [List.cons_append]
    cases hg : processFile st g with
    | mk stx r =>
      cases r with
      | none =>
        simp only [handleFilesLoop, hg] at hpre ⊢
        exact ih stx hpre
      | some e2 =>
        simp only [handleFilesLoop, hg, Prod.mk.injEq] at hpre
        cases hpre.2

/-- Witness for C2's amended theorem: an accepted file, then a rejected
one, then another valid file that is never reached. -/
theorem rejection_halts_batch_witness :
    handleFilesLoop ⟨[], 0⟩ ([fGood] ++ fBadExt :: [fGood2])
      = (⟨[⟨fGood, 1⟩], 1⟩, some .InvalidExtension) :=
  rejection_halts_batch ⟨[], 0⟩ ⟨[⟨fGood, 1⟩], 1⟩ ⟨[⟨fGood, 1⟩], 1⟩
    [fGood] [fGood2] fBadExt .InvalidExtension (by decide) (by decide)

/-- C3: evaluation of the code at the failing input. Starting from five
accepted 100-page documents (running page total 500), a valid one-page
candidate is rejected by the aggregate page-count check; the registry is
indeed unchanged, but the AggregateLimits running page total has mutated
from 500 to 501: `this.totalPages += pageCount` runs before the ceiling
check and is never rolled back on rejection. -/
theorem aggregate_reject_mutates_totals :
    (handleFiles ⟨List.replicate 5 ⟨fBig, 100⟩, 500⟩ [fGood2]).2
      = some .AggregatePageLimitExceeded ∧
    (handleFiles ⟨List.replicate 5 ⟨fBig, 100⟩, 500⟩ [fGood2]).1.pdfFiles
      = List.replicate 5 ⟨fBig, 100⟩ ∧
    (handleFiles ⟨List.replicate 5 ⟨fBig, 100⟩, 500⟩ [fGood2]).1.totalPages
      = 501 := by
  decide

/-- C5: a batch whose file count exceeds MAX_DOCUMENTS (20) is rejected
whole with TooManyFiles before any per-file check runs: the returned
state is exactly the input state, so the registry and the running totals
are unchanged and no file of the batch is accepted. -/
theorem batch_count_cap_rejects_all (st : MergerState)
    (files : List CandidateFile)
    (h : files.length > SECURITY_CONFIG.MAX_DOCUMENTS) :
    handleFiles st files = (st, some .TooManyFiles) := by
  unfold handleFiles
  rw [if_pos h]

/-- Witness for C5: a batch of 21 valid files is rejected whole. -/
theorem batch_count_cap_witness :
    handleFiles ⟨[], 0⟩ (List.replicate 21 fGood)
      = (⟨[], 0⟩, some .TooManyFiles) :=
  batch_count_cap_rejects_all ⟨[], 0⟩ (List.replicate 21 fGood) (by decide)

/-- A candidate whose first 4 bytes are all zero but whose declared MIME
type is a non-empty non-PDF value. -/
def fMimeSpoof : CandidateFile := ⟨"report.pdf", 4, "image/png", [0, 0, 0, 0], none⟩

/-- C4 counterexample: a candidate of at least 4 bytes whose first 4
bytes differ from %PDF but whose declared MIME type is image/png is
rejected with InvalidMimeType, not InvalidSignature: the MIME check fires
before the magic-number check, so the rejection reason is not independent
of the declared MIME type. -/
theorem bad_signature_mime_first_cex :
    4 ≤ fMimeSpoof.content.length ∧
    fMimeSpoof.content.take 4 ≠ SECURITY_CONFIG.PDF_HEADER ∧
    validateFileAdvanced fMimeSpoof = .error .InvalidMimeType ∧
    validateFileAdvanced fMimeSpoof ≠ .error .InvalidSignature := by
  decide

/-- C4 amended: a candidate of at least 4 bytes whose first 4 bytes
differ from %PDF is rejected by validateFileAdvanced with
InvalidSignature whenever its declared MIME type is absent or the allowed
PDF type — the file name, and hence the extension, plays no role in
validateFileAdvanced, so the rejection holds regardless of extension.
(With a different non-empty MIME type the file is still rejected, but
earlier, with InvalidMimeType.) -/
theorem bad_signature_rejected (f : CandidateFile)
    (hm : f.mime = "" ∨ f.mime ∈ SECURITY_CONFIG.ALLOWED_MIME_TYPES)
    (hlen : 4 ≤ f.content.length)
    (hsig : f.content.take 4 ≠ SECURITY_CONFIG.PDF_HEADER) :
    validateFileAdvanced f = .error .InvalidSignature := by
  have hmime : ¬ (f.mime ≠ "" ∧ ¬ SECURITY_CONFIG.ALLOWED_MIME_TYPES.contains f.mime) := by
    rcases hm with h | h
    · simp [h]
    · have h2 : f.mime = "application/pdf" := by
        simpa [SECURITY_CONFIG.ALLOWED_MIME_TYPES] using h
      rw [h2]
      decide
  have hfalse : ¬ (headerMatches (readFileHeader f) SECURITY_CONFIG.PDF_HEADER = true) := by
    intro htrue
    have hle : (readFileHeader f).length ≤ SECURITY_CONFIG.PDF_HEADER.length := by
      simp [readFileHeader, SECURITY_CONFIG.PDF_HEADER]
    have heq := (headerMatches_iff_take _ _ hle).mp htrue
    have hlen4 : (readFileHeader f).length = 4 := by
      simp [readFileHeader]
      omega
    rw [hlen4] at heq
    have htake : SECURITY_CONFIG.PDF_HEADER.take 4 = SECURITY_CONFIG.PDF_HEADER := by
      decide
    rw [htake] at heq
    exact hsig heq
  unfold validateFileAdvanced
  rw [if_neg hmime, if_pos hfalse]

/-- A candidate with a non-PDF name, absent MIME type and a wrong
4-byte signature. -/
def fWrongSig : CandidateFile := ⟨"not-a-pdf.txt", 5, "", [0, 0, 0, 0, 9], some 1⟩

/-- Witness for C4's amended theorem. -/
theorem bad_signature_rejected_witness :
    validateFileAdvanced fWrongSig = .error .InvalidSignature :=
  bad_signature_rejected fWrongSig (Or.inl rfl) (by decide) (by decide)

/-- C6: for a candidate that passes the MIME and magic-number checks, the
per-document page ceiling accepts a parsed page count of exactly 100
(validateFileAdvanced returns it) and rejects a parsed page count of 101
or more with TooManyPages. -/
theorem page_ceiling_boundary (f : CandidateFile)
    (hm : ¬ (f.mime ≠ "" ∧ ¬ SECURITY_CONFIG.ALLOWED_MIME_TYPES.contains f.mime))
    (hh : headerMatches (readFileHeader f) SECURITY_CONFIG.PDF_HEADER = true) :
    (f.parse = some 100 → validateFileAdvanced f = .ok 100) ∧
    (∀ n, f.parse = some n → 101 ≤ n →
      validateFileAdvanced f = .error .TooManyPages) := by
  constructor
  · intro hp
    unfold validateFileAdvanced
    rw [if_neg hm, if_neg (by simp [hh]), hp]
    norm_num
  · intro n hp hn
    unfold validateFileAdvanced
    rw [if_neg hm, if_neg (by simp [hh]), hp]
    simp only []
    rw [if_pos (by omega)]

/-- A candidate parsing to exactly 100 pages. -/
def fPages100 : CandidateFile :=
  ⟨"hundred.pdf", 5000, "application/pdf", [0x25, 0x50, 0x44, 0x46], some 100⟩

/-- A candidate parsing to 101 pages. -/
def fPages101 : CandidateFile :=
  ⟨"hundred-one.pdf", 5000, "application/pdf", [0x25, 0x50, 0x44, 0x46], some 101⟩

/-- Witness for C6 at page counts 100 and 101. -/
theorem page_ceiling_boundary_witness :
    validateFileAdvanced fPages100 = .ok 100 ∧
    validateFileAdvanced fPages101 = .error .TooManyPages :=
  ⟨(page_ceiling_boundary fPages100 (by decide) (by decide)).1 rfl,
   (page_ceiling_boundary fPages101 (by decide) (by decide)).2 101 rfl
     (by decide)⟩

/-- C7: moving the document at a valid non-boundary position up and then
moving the same document (now one position earlier) down restores the
original order, and symmetrically for down-then-up; moveUp on the first
position and moveDown on the last are no-ops. -/
theorem move_up_down_inverse {α : Type} (l : List α) (i j : Nat)
    (h0 : 0 < i) (hi : i < l.length) (hj : j + 1 < l.length) :
    moveDown (moveUp l i) (i - 1) = l ∧
    moveUp (moveDown l j) (j + 1) = l ∧
    moveUp l 0 = l ∧
    moveDown l (l.length - 1) = l := by
  refine ⟨?_, ?_, ?_, ?_⟩
  · have e : i - 1 + 1 = i := Nat.succ_pred_eq_of_pos h0
    unfold moveUp
    rw [if_pos h0]
    unfold moveDown
    rw [length_swapAdj, e, if_pos hi]
    exact swapAdj_invol l i (i - 1) hi (by omega) (by omega)
  · unfold moveDown
    rw [if_pos hj]
    unfold moveUp
    rw [if_pos (Nat.succ_pos j)]
    have e : j + 1 - 1 = j := rfl
    rw [e]
    exact swapAdj_invol l j (j + 1) (by omega) hj (by omega)
  · unfold moveUp
    rw [if_neg (lt_irrefl 0)]
  · unfold moveDown
    rw [if_neg (by omega)]

/-- Witness for C7 on a three-element registry, at interior position 1. -/
theorem move_up_down_inverse_witness :
    moveDown (moveUp [10, 20, 30] 1) 0 = [10, 20, 30] ∧
    moveUp (moveDown [10, 20, 30] 1) 2 = [10, 20, 30] ∧
    moveUp [10, 20, 30] 0 = [10, 20, 30] ∧
    moveDown [10, 20, 30] ([10, 20, 30].length - 1) = [10, 20, 30] :=
  move_up_down_inverse [10, 20, 30] 1 1 (by decide) (by decide) (by decide)

/-- C8: for a non-empty registry, if loading (or copying from) any single
source document fails, the entire merge fails and no output page stream
exists — the partially-built output is discarded — and on every path,
success or failure, the merge button is re-enabled with its label
restored. -/
theorem merge_failure_aborts_all {P : Type} (ui : MergeUI)
    (files : List (PdfFile P)) (hne : files ≠ []) :
    ((∃ f ∈ files, f.load = none) → (mergePDFsFull ui files).output = none) ∧
    (mergePDFsFull ui files).ui = ⟨false, "Merge PDFs"⟩ := by
  have hne2 : files.isEmpty = false := by
    cases files with
    | nil => exact absurd rfl hne
    | cons a l => rfl
  constructor
  · intro hfail
    simp [mergePDFsFull, hne2, mergeLoop_fail files [] hfail]
  · simp only [mergePDFsFull, hne2, Bool.false_eq_true, if_false]
    cases mergeLoop files [] <;> rfl

/-- Witness for C8: a registry whose second entry fails to load. -/
theorem merge_failure_aborts_all_witness :
    ((∃ f ∈ [mfA, (⟨3, none⟩ : PdfFile Nat)], f.load = none) →
      (mergePDFsFull ⟨false, "Merge PDFs"⟩ [mfA, ⟨3, none⟩]).output = none) ∧
    (mergePDFsFull ⟨false, "Merge PDFs"⟩
      [mfA, (⟨3, none⟩ : PdfFile Nat)]).ui = ⟨false, "Merge PDFs"⟩ :=
  merge_failure_aborts_all ⟨false, "Merge PDFs"⟩ [mfA, ⟨3, none⟩] (by decide)

/-- C9: on a state whose running page total equals the total re-derived
from the registry, removing the document at a valid index (decrementing
the total directly, as the handler does) leaves the running total equal
to the total re-derived from the remaining registry, and the document
count drops by exactly one: no drift. -/
theorem remove_no_drift (st : MergerState) (i : Nat)
    (hi : i < st.pdfFiles.length)
    (hsum : st.totalPages = (st.pdfFiles.map AcceptedDoc.pageCount).sum) :
    (removeDoc st i).totalPages
      = ((removeDoc st i).pdfFiles.map AcceptedDoc.pageCount).sum ∧
    (removeDoc st i).pdfFiles.length = st.pdfFiles.length - 1 := by
  have hget : st.pdfFiles[i]? = some st.pdfFiles[i] :=
    List.getElem?_eq_getElem hi
  have hsplit := sum_map_eraseIdx AcceptedDoc.pageCount st.pdfFiles i _ hget
  unfold removeDoc
  rw [hget]
  constructor
  · show st.totalPages - (st.pdfFiles[i]).pageCount
      = ((st.pdfFiles.eraseIdx i).map AcceptedDoc.pageCount).sum
    rw [hsum, hsplit]
    omega
  · show (st.pdfFiles.eraseIdx i).length = st.pdfFiles.length - 1
    rw [List.length_eraseIdx, if_pos hi]

/-- Witness for C9 on a consistent two-document state, removing index 0. -/
theorem remove_no_drift_witness :
    (removeDoc ⟨[⟨fGood, 1⟩, ⟨fBig, 100⟩], 101⟩ 0).totalPages
      = ((removeDoc ⟨[⟨fGood, 1⟩, ⟨fBig, 100⟩], 101⟩ 0).pdfFiles.map
          AcceptedDoc.pageCount).sum ∧
    (removeDoc ⟨[⟨fGood, 1⟩, ⟨fBig, 100⟩], 101⟩ 0).pdfFiles.length
      = ([⟨fGood, 1⟩, ⟨fBig, 100⟩] : List AcceptedDoc).length - 1 :=
  remove_no_drift ⟨[⟨fGood, 1⟩, ⟨fBig, 100⟩], 101⟩ 0 (by decide) (by decide)

/-- A one-byte candidate whose single byte does not match the first
signature byte. -/
def fOneByte : CandidateFile := ⟨"a.pdf", 1, "", [0x00], some 1⟩

/-- C10 counterexample: a candidate shorter than 4 bytes whose bytes do
not match the signature prefix IS rejected with InvalidSignature — the
truncated header does not automatically match, so such files do not all
proceed to the structural parse check. -/
theorem short_file_rejected_cex :
    fOneByte.content.length < 4 ∧
    validateFileAdvanced fOneByte = .error .InvalidSignature := by
  decide

/-- C10 amended: for a candidate shorter than 4 bytes the signature check
compares only the bytes present: it passes exactly when the content
equals the corresponding prefix of %PDF — in particular the empty file
passes vacuously — and a passing file (with an acceptable MIME type)
proceeds to the structural parse check, whose outcome then decides
validation. -/
theorem short_header_vacuous (f : CandidateFile)
    (hlen : f.content.length < 4) :
    (headerMatches (readFileHeader f) SECURITY_CONFIG.PDF_HEADER = true
      ↔ f.content = SECURITY_CONFIG.PDF_HEADER.take f.content.length) ∧
    (f.content = [] →
      headerMatches (readFileHeader f) SECURITY_CONFIG.PDF_HEADER = true) ∧
    ((¬ (f.mime ≠ "" ∧ ¬ SECURITY_CONFIG.ALLOWED_MIME_TYPES.contains f.mime)) →
      f.content = SECURITY_CONFIG.PDF_HEADER.take f.content.length →
      validateFileAdvanced f = (match f.parse with
        | none => .error .CorruptDocument
        | some n => if n > 100 then .error .TooManyPages else .ok n)) := by
  have hh : readFileHeader f = f.content := by
    unfold readFileHeader
    exact List.take_of_length_le (by omega)
  have hiff : headerMatches (readFileHeader f) SECURITY_CONFIG.PDF_HEADER = true
      ↔ f.content = SECURITY_CONFIG.PDF_HEADER.take f.content.length := by
    rw [hh]
    exact headerMatches_iff_take f.content SECURITY_CONFIG.PDF_HEADER
      (by simp [SECURITY_CONFIG.PDF_HEADER]; omega)
  refine ⟨hiff, ?_, ?_⟩
  · intro hnil
    rw [hh, hnil]
    rfl
  · intro hm hpre
    unfold validateFileAdvanced
    rw [if_neg hm, if_neg (by simp [hiff.mpr hpre])]

/-- A two-byte candidate holding exactly the first two signature bytes
("%P"), with no MIME type, failing the structural parse. -/
def fShortPrefix : CandidateFile := ⟨"p.pdf", 2, "", [0x25, 0x50], none⟩

/-- Witness for C10's amended theorem: the two-byte %P file passes the
signature check and falls through to the structural parse, which rejects
it as corrupt. -/
theorem short_header_vacuous_witness :
    validateFileAdvanced fShortPrefix = (match fShortPrefix.parse with
      | none => .error .CorruptDocument
      | some n => if n > 100 then .error .TooManyPages else .ok n) :=
  (short_header_vacuous fShortPrefix (by decide)).2.2 (by decide) (by decide)

